import Mathlib

/-!
Verification development for the FortiGate dashboard ingestion core.

The definitions below are a shallow embedding of the Python backend
(`backend/collectors/syslog_collector.py`: `FortiGateSyslogCollector.parse_fortigate_log`,
`FortiGateSyslogCollector._categorize_log`, `LogAggregator`) and of the browser-side
WebSocket message handler (`frontend/src/hooks/useWebSocket.js`).

Modelling conventions:
* Python/JSON values occurring in a parsed log dict are either strings or
  integers (`Value`); Python dicts are association lists in insertion order,
  which matches CPython dict iteration-order semantics.
* Character classes (`\w`, `\S`, `str.isdigit`, `str.lower`) are modelled over
  ASCII, which is the alphabet of FortiGate syslog lines.
* Exceptions are explicit: `_is_ip_address` returns `Except Unit Bool`
  (it raises `AttributeError` when handed a Python `int`, because
  `value.split('.')` is evaluated outside its `try` block), and `add_log`
  returns the state reached so far together with an "ok" flag, since a raised
  exception leaves the mutations already performed in place.
-/

/-- A parsed log value: Python `str` or `int` (the only two types
`parse_fortigate_log` produces). -/
inductive Value where
  | str (s : String)
  | int (n : Int)
deriving DecidableEq, Repr

/-- Python truthiness for a `Value`: empty string and `0` are falsy. -/
def truthy : Value → Bool
  | .str s => s ≠ ""
  | .int n => n ≠ 0

/-- Python truthiness where `none` models Python `None` (falsy). -/
def otruthy : Option Value → Bool
  | none => false
  | some v => truthy v

/-- Python `str()` of a value, as used in f-strings and `str(action)`. -/
def pyStr : Value → String
  | .str s => s
  | .int n => toString n

/-- Python `str.lower()` (ASCII model): lower-case each character. -/
def pyLower (s : String) : String := String.mk (s.data.map Char.toLower)

/-- Dict lookup `d.get(k)` on an insertion-ordered association list. -/
def dget [DecidableEq α] {β : Type} : List (α × β) → α → Option β
  | [], _ => none
  | (k0, v0) :: rest, k => if k = k0 then some v0 else dget rest k

/-- Dict assignment `d[k] = v`: replace in place if the key exists
(keeping its position, as CPython does), else append. -/
def dset {β : Type} : List (String × β) → String → β → List (String × β)
  | [], k, v => [(k, v)]
  | (k0, v0) :: rest, k, v =>
    if k = k0 then (k0, v) :: rest else (k0, v0) :: dset rest k v

/-- Counter update `d[k] = d.get(k, 0) + 1`. -/
def bump [DecidableEq α] : List (α × Nat) → α → List (α × Nat)
  | [], k => [(k, 1)]
  | (k0, c) :: rest, k =>
    if k = k0 then (k0, c + 1) :: rest else (k0, c) :: bump rest k

/-- `if k not in d: d[k] = dflt` — insert a default only when absent. -/
def dsetdefault [DecidableEq α] {β : Type} (dflt : β) : List (α × β) → α → List (α × β)
  | [], k => [(k, dflt)]
  | (k0, v0) :: rest, k =>
    if k = k0 then (k0, v0) :: rest else (k0, v0) :: dsetdefault dflt rest k

/-- In-place update `d[k] = f (d[k])` of the (present) entry for `k`. -/
def dmodify [DecidableEq α] {β : Type} (f : β → β) : List (α × β) → α → List (α × β)
  | [], _ => []
  | (k0, v0) :: rest, k =>
    if k = k0 then (k0, f v0) :: rest else (k0, v0) :: dmodify f rest k

/-- `srcip = log.get('srcip'); if srcip: d[srcip] += 1` — bump keyed by a
possibly-missing, possibly-falsy value. -/
def bumpIfTruthy (d : List (Value × Nat)) : Option Value → List (Value × Nat)
  | none => d
  | some v => if truthy v then bump d v else d

/-- The count stored for a key (0 when absent), used to state claims about
"the per-X counter". -/
def lookupCount [DecidableEq α] (d : List (α × Nat)) (k : α) : Nat :=
  (dget d k).getD 0

/-! ## The key=value tokenizer: `re.findall(r'(\w+)=(?:"([^"]*)"|([\S]+))', raw)` -/

/-- Regex `\w` over ASCII: letters, digits, underscore. -/
def isWordChar (c : Char) : Bool := c.isAlphanum || c = '_'

/-- Python `\s` over ASCII: space, tab, newline, vertical tab, form feed,
carriage return. -/
def isPySpace (c : Char) : Bool :=
  c = ' ' || c = '\t' || c = '\n' || c = '\x0b' || c = '\x0c' || c = '\r'

/-- One attempted match of `(\w+)=(?:"([^"]*)"|([\S]+))` at the current
position: a non-empty word-character run, `=`, then either a quoted value
(when a closing quote exists) or a maximal non-whitespace run.  Returns the
key, the value (Python's `quoted_val if quoted_val else unquoted_val`
collapse yields the same string either way, since a non-participating group
is `''`), and the remaining input. -/
def tryMatch (cs : List Char) : Option (String × String × List Char) :=
  let key := cs.takeWhile isWordChar
  if key.isEmpty then none
  else
    match cs.drop key.length with
    | '=' :: rest2 =>
      let unquoted : Option (String × String × List Char) :=
        let v := rest2.takeWhile (fun c => !isPySpace c)
        if v.isEmpty then none
        else some (String.mk key, String.mk v, rest2.drop v.length)
      match rest2 with
      | '"' :: rest3 =>
        let content := rest3.takeWhile (fun c => c ≠ '"')
        if content.length < rest3.length then
          some (String.mk key, String.mk content, rest3.drop (content.length + 1))
        else
          -- no closing quote: the first alternative fails and `[\S]+`
          -- matches starting at the opening quote
          unquoted
      | _ => unquoted
    | _ => none

/-- `re.findall` scan: try a match at each position, consuming the match on
success and one character on failure.  The fuel is the input length, which
bounds the number of steps since every step consumes at least one character. -/
def findKVAux : Nat → List Char → List (String × String)
  | 0, _ => []
  | _ + 1, [] => []
  | fuel + 1, c :: cs =>
    match tryMatch (c :: cs) with
    | some (k, v, rest) => (k, v) :: findKVAux fuel rest
    | none => findKVAux fuel cs

/-- All `key=value` tokens of a raw line, in scan order. -/
def pyFindAll (s : String) : List (String × String) :=
  findKVAux s.length s.data

/-- Python `str.isdigit()` (ASCII model): non-empty and all characters
decimal digits. -/
def pyIsDigit (s : String) : Bool := !s.data.isEmpty && s.data.all Char.isDigit

/-- Decimal value of an all-digit string, i.e. Python `int` on such input. -/
def decimalNat (s : String) : Nat :=
  s.data.foldl (fun n c => 10 * n + (c.toNat - '0'.toNat)) 0

/-- The parser's value coercion: `int(value) if value.isdigit() else value`. -/
def coerceValue (v : String) : Value :=
  if pyIsDigit v then .int (decimalNat v) else .str v

/-! ## `_is_ip_address` and the Python `int()` builtin it relies on -/

/-- Digit runs separated by single underscores (`1_000`), the shape Python's
`int()` accepts after sign and whitespace. -/
def underscoreDigitsOk (cs : List Char) : Bool :=
  !cs.isEmpty
    && cs.head? ≠ some '_'
    && cs.getLast? ≠ some '_'
    && cs.all (fun c => c.isDigit || c = '_')
    && (cs.zip cs.tail).all (fun p => !(p.1 = '_' && p.2 = '_'))

/-- Numeric value of a digit-and-underscore run. -/
def underscoreDigitsVal (cs : List Char) : Nat :=
  (cs.filter Char.isDigit).foldl (fun n c => 10 * n + (c.toNat - '0'.toNat)) 0

/-- Python `int()` on a character sequence (ASCII model): strip whitespace,
optional sign, digits with underscore separators; `none` models `ValueError`. -/
def pyIntOfChars (cs : List Char) : Option Int :=
  let t := ((cs.dropWhile isPySpace).reverse.dropWhile isPySpace).reverse
  match t with
  | '+' :: r => if underscoreDigitsOk r then some (underscoreDigitsVal r) else none
  | '-' :: r => if underscoreDigitsOk r then some (-(underscoreDigitsVal r : Int)) else none
  | r => if underscoreDigitsOk r then some (underscoreDigitsVal r) else none

/-- Python `int(s)` on a string. -/
def pyIntOfString (s : String) : Option Int := pyIntOfChars s.data

/-- Python `value.split('.')`: split at every dot, keeping empty pieces. -/
def splitDotAux : List Char → List Char → List (List Char)
  | [], acc => [acc.reverse]
  | '.' :: rest, acc => acc.reverse :: splitDotAux rest []
  | c :: rest, acc => splitDotAux rest (c :: acc)

/-- Python `s.split('.')` on the characters of `s`. -/
def splitDot (cs : List Char) : List (List Char) := splitDotAux cs []

/-- `LogAggregator._is_ip_address`.  On a Python `int` argument the guard
`if not value` passes for non-zero values and `value.split('.')` then raises
`AttributeError` (it sits outside the `try` block), modelled as `.error ()`.
On strings, `int(part)` failures are caught and yield `False`. -/
def isIpAddress : Value → Except Unit Bool
  | .int n => if n = 0 then .ok false else .error ()
  | .str s =>
    if s = "" then .ok false
    else
      let parts := splitDot s.data
      if parts.length ≠ 4 then .ok false
      else
        .ok (parts.all fun p =>
          match pyIntOfChars p with
          | some m => decide (0 ≤ m ∧ m ≤ 255)
          | none => false)

/-! ## `parse_fortigate_log` and `_categorize_log` -/

/-- A parsed log line: the Python dict, as an insertion-ordered association
list. -/
abbrev LogDict := List (String × Value)

/-- `FortiGateSyslogCollector._categorize_log`: the fixed
(`type`, `subtype`) lookup table with fallback `f"{log_type}_{subtype}"`. -/
def categorizeLog (log : LogDict) : String :=
  let t := (dget log "type").getD (.str "")
  let s := (dget log "subtype").getD (.str "")
  if t = .str "traffic" ∧ s = .str "forward" then "traffic_forward"
  else if t = .str "traffic" ∧ s = .str "local" then "traffic_local"
  else if t = .str "utm" ∧ s = .str "virus" then "security_av"
  else if t = .str "utm" ∧ s = .str "webfilter" then "security_web"
  else if t = .str "utm" ∧ s = .str "ips" then "security_ips"
  else if t = .str "utm" ∧ s = .str "app-ctrl" then "security_app"
  else if t = .str "event" ∧ s = .str "system" then "event_system"
  else if t = .str "event" ∧ s = .str "vpn" then "event_vpn"
  else if t = .str "event" ∧ s = .str "user" then "event_user"
  else pyStr t ++ "_" ++ pyStr s

/-- `FortiGateSyslogCollector.parse_fortigate_log`.  `received_at` (Python
`datetime.utcnow().isoformat()`) is passed in as a parameter. -/
def parseFortigateLog (raw : String) (receivedAt : String) : LogDict :=
  let parsed : LogDict := [("raw", .str raw), ("received_at", .str receivedAt)]
  let parsed := (pyFindAll raw).foldl
    (fun d kv => dset d kv.1 (coerceValue kv.2)) parsed
  let parsed :=
    match dget parsed "date", dget parsed "time" with
    | some dv, some tv => dset parsed "timestamp" (.str (pyStr dv ++ "T" ++ pyStr tv))
    | _, _ => parsed
  dset parsed "log_category" (.str (categorizeLog parsed))

/-! ## `LogAggregator` state and `add_log` -/

/-- The `LogAggregator` fields: the bounded recent-log ring (`_logs` with
`max_logs`) and the `stats` dict. -/
structure Agg where
  maxLogs : Nat
  logs : List LogDict
  total_logs : Nat
  by_action : List (Value × Nat)
  by_srcip : List (Value × Nat)
  by_dstip : List (Value × Nat)
  by_type : List (Value × Nat)
  blocked_count : Nat
  allowed_count : Nat
  blocked_sites : List (Value × Nat)
  by_destination : List (Value × Nat)
  blocked_categories : List (Value × Nat)
  blocked_sites_detail : List (Value × List (Value × Nat))
  blocked_categories_detail : List (Value × List (Value × List (Value × Nat)))
deriving DecidableEq, Repr

/-- `LogAggregator.__init__(max_logs)`: empty ring, zeroed statistics. -/
def initAgg (maxLogs : Nat) : Agg :=
  { maxLogs := maxLogs, logs := [], total_logs := 0, by_action := [],
    by_srcip := [], by_dstip := [], by_type := [], blocked_count := 0,
    allowed_count := 0, blocked_sites := [], by_destination := [],
    blocked_categories := [], blocked_sites_detail := [],
    blocked_categories_detail := [] }

/-- Python slice `l[-n:]` (for `n = 0` it is `l[0:]`, the whole list). -/
def pySliceLast (n : Nat) (l : List α) : List α :=
  if n = 0 then l else l.drop (l.length - n)

/-- The ring-buffer trim: `if len(logs) > max_logs: logs = logs[-max_logs:]`. -/
def pyTrim (maxLogs : Nat) (l : List LogDict) : List LogDict :=
  if l.length > maxLogs then pySliceLast maxLogs l else l

/-- The block-like action labels tested by `add_log`:
`('deny', 'denied', 'blocked', 'drop', 'block')`. -/
def blockActions : List String := ["deny", "denied", "blocked", "drop", "block"]

/-- The allow-like action labels tested by `add_log`:
`('accept', 'accepted', 'allow', 'allowed', 'pass')`. -/
def allowActions : List String := ["accept", "accepted", "allow", "allowed", "pass"]

/-- The local `action_lower` of `add_log`:
`str(action).lower() if action else ''` with `action = log.get('action', 'unknown')`. -/
def actionLowerOf (log : LogDict) : String :=
  let action := (dget log "action").getD (.str "unknown")
  if truthy action then pyLower (pyStr action) else ""

/-- Python `a or b` on two optional values: the first when truthy, else the
second (even when the second is falsy or `None`). -/
def pyOr (a b : Option Value) : Option Value := if otruthy a then a else b

/-- `LogAggregator.add_log`, statement by statement.  The returned `Bool` is
`false` when the call raised (`AttributeError` from `_is_ip_address` on an
integer hostname); the returned state then holds exactly the mutations
performed before the raise, since the Python code mutates `self` in place. -/
def addLog (log : LogDict) (a : Agg) : Agg × Bool :=
  -- self._logs.append(log); trim to max_logs
  let a := { a with logs := pyTrim a.maxLogs (a.logs ++ [log]) }
  -- self.stats['total_logs'] += 1
  let a := { a with total_logs := a.total_logs + 1 }
  -- action = log.get('action', 'unknown'); by_action[action] += 1
  let action := (dget log "action").getD (.str "unknown")
  let a := { a with by_action := bump a.by_action action }
  -- action_lower = str(action).lower() if action else ''
  let actionLower := actionLowerOf log
  -- blocked_count / allowed_count (if / elif)
  let a :=
    if actionLower ∈ blockActions then { a with blocked_count := a.blocked_count + 1 }
    else if actionLower ∈ allowActions then { a with allowed_count := a.allowed_count + 1 }
    else a
  -- srcip / dstip counters
  let srcip := dget log "srcip"
  let a := { a with by_srcip := bumpIfTruthy a.by_srcip srcip }
  let dstip := dget log "dstip"
  let a := { a with by_dstip := bumpIfTruthy a.by_dstip dstip }
  -- hostname / destination resolution; `_is_ip_address` is only evaluated
  -- when `hostname and hostname != dstip`, and raises on an integer hostname
  let hostname := dget log "hostname"
  let ipTest : Except Unit Bool :=
    if otruthy hostname && decide (hostname ≠ dstip) then
      match hostname with
      | some hv => isIpAddress hv
      | none => .ok false
    else .ok false
  match ipTest with
  | .error _ => (a, false)
  | .ok hostIsIp =>
    let hostWins := otruthy hostname && decide (hostname ≠ dstip) && !hostIsIp
    let destination := if hostWins then hostname else dstip
    let a := { a with by_destination := bumpIfTruthy a.by_destination destination }
    let log_type := (dget log "type").getD (.str "")
    let subtype := (dget log "subtype").getD (.str "")
    let a :=
      if actionLower ∈ blockActions ∧ log_type = .str "utm" then
        -- blocked_site = log.get('hostname') or log.get('dstip'), then the
        -- same hostname test again (same outcome as `hostWins`, and it cannot
        -- raise here: an integer hostname passing the guard raised above)
        let blockedSite0 := pyOr (dget log "hostname") (dget log "dstip")
        let blockedSite :=
          if otruthy blockedSite0 && hostWins then hostname
          else if !otruthy blockedSite0 then dstip
          else blockedSite0
        let a :=
          match blockedSite with
          | some bsv =>
            if truthy bsv then
              let sd := dsetdefault ([] : List (Value × Nat)) a.blocked_sites_detail bsv
              let sd :=
                match srcip with
                | some sv => if truthy sv then dmodify (fun m => bump m sv) sd bsv else sd
                | none => sd
              { a with blocked_sites := bump a.blocked_sites bsv,
                       blocked_sites_detail := sd }
            else a
          | none => a
        let catdesc := dget log "catdesc"
        if subtype = .str "webfilter" ∨ otruthy catdesc then
          let category : Value :=
            match catdesc with
            | some cv => if truthy cv then cv else .str "Other"
            | none => .str "Other"
          let cd := dsetdefault ([] : List (Value × List (Value × Nat)))
            a.blocked_categories_detail category
          let cd :=
            match srcip with
            | some sv =>
              if truthy sv then
                dmodify (fun m =>
                  let m := dsetdefault ([] : List (Value × Nat)) m sv
                  match blockedSite with
                  | some bsv => if truthy bsv then dmodify (fun mm => bump mm bsv) m sv else m
                  | none => m) cd category
              else cd
            | none => cd
          { a with blocked_categories := bump a.blocked_categories category,
                   blocked_categories_detail := cd }
        else a
      else a
    -- log_cat = log.get('log_category', 'unknown'); by_type[log_cat] += 1
    let log_cat := (dget log "log_category").getD (.str "unknown")
    ({ a with by_type := bump a.by_type log_cat }, true)

/-- Ingest a sequence of records in order (repeated `add_log`; a raised call
leaves its partial mutations in place and the aggregator keeps running). -/
def ingestAll (rs : List LogDict) (a : Agg) : Agg :=
  rs.foldl (fun s r => (addLog r s).1) a

/-! ## `get_stats`: Top-N derivation -/

/-- Stable insertion of `x` into a count-descending list: `x` goes before the
first element with a strictly smaller count, hence after all earlier elements
of equal count. -/
def insertDesc (count : α → Nat) (x : α) : List α → List α
  | [] => [x]
  | y :: ys => if count y < count x then x :: y :: ys else y :: insertDesc count x ys

/-- Stable descending sort by count — the behaviour of CPython's stable
`sorted(..., key=lambda x: x[1], reverse=True)`. -/
def sortDescBy (count : α → Nat) (l : List α) : List α :=
  l.foldl (fun acc x => insertDesc count x acc) []

/-- `sorted(items, key=count, reverse=True)[:10]`. -/
def topTen (count : α → Nat) (l : List α) : List α :=
  (sortDescBy count l).take 10

/-- One entry of `top_blocked_detail`: `{'site': .., 'count': .., 'sources': ..}`. -/
structure SiteDetail where
  site : Value
  count : Nat
  sources : List (Value × Nat)
deriving DecidableEq, Repr

/-- One entry of `top_blocked_categories_detail`:
`{'category': .., 'count': .., 'sources': ..}` with flattened
`(srcip, destination, count)` tuples. -/
structure CatDetail where
  category : Value
  count : Nat
  sources : List (Value × Value × Nat)
deriving DecidableEq, Repr

/-- The dict returned by `LogAggregator.get_stats`. -/
structure StatsOut where
  total_logs : Nat
  blocked_count : Nat
  allowed_count : Nat
  by_action : List (Value × Nat)
  by_type : List (Value × Nat)
  top_sources : List (Value × Nat)
  top_destinations : List (Value × Nat)
  top_blocked : List (Value × Nat)
  top_blocked_categories : List (Value × Nat)
  top_blocked_detail : List SiteDetail
  top_blocked_categories_detail : List CatDetail
deriving DecidableEq, Repr

/-- The flattening of one category's detail map:
`for srcip, destinations in cat_data.items(): for dest, c in destinations.items()`. -/
def flattenCat (catData : List (Value × List (Value × Nat))) : List (Value × Value × Nat) :=
  (catData.map (fun p => p.2.map (fun q => (p.1, q.1, q.2)))).flatten

/-- `LogAggregator.get_stats`. -/
def getStats (a : Agg) : StatsOut :=
  let top_blocked := topTen Prod.snd a.blocked_sites
  let top_blocked_categories := topTen Prod.snd a.blocked_categories
  { total_logs := a.total_logs
    blocked_count := a.blocked_count
    allowed_count := a.allowed_count
    by_action := a.by_action
    by_type := a.by_type
    top_sources := topTen Prod.snd a.by_srcip
    top_destinations := topTen Prod.snd a.by_destination
    top_blocked := top_blocked
    top_blocked_categories := top_blocked_categories
    top_blocked_detail := top_blocked.map (fun p =>
      { site := p.1, count := p.2,
        sources := topTen Prod.snd ((dget a.blocked_sites_detail p.1).getD []) })
    top_blocked_categories_detail := top_blocked_categories.map (fun p =>
      { category := p.1, count := p.2,
        sources := topTen (fun t => t.2.2)
          (flattenCat ((dget a.blocked_categories_detail p.1).getD [])) }) }

/-! ## The browser-side WebSocket handler (`useWebSocket.js`) -/

/-- One point of the `trafficOverTime` chart state.  Entries built by the
`init` branch carry no `total` property; since the handler only reads it as
`(lastEntry.total || 0)`, a missing `total` is modelled as `0`. -/
structure TrafficPoint where
  time : String
  allowed : Nat
  blocked : Nat
  total : Nat
deriving DecidableEq, Repr

/-- The slice of the `stats` React state the embedded handler branches read
and write (the fields of the initial `useState` object). -/
structure ClientStats where
  total_logs : Nat
  allowed_count : Nat
  blocked_count : Nat
  by_action : List (Value × Nat)
  by_type : List (Value × Nat)
  top_sources : List (Value × Nat)
  top_destinations : List (Value × Nat)
deriving DecidableEq, Repr

/-- The subscriber-visible React state of `useWebSocket`, including the
per-subscriber `isPausedRef` flag. -/
structure ClientState where
  logs : List LogDict
  stats : ClientStats
  trafficOverTime : List TrafficPoint
  topBlocked : List (Value × Nat)
  topBlockedCategories : List (Value × Nat)
  topBlockedDetail : List SiteDetail
  topBlockedCategoriesDetail : List CatDetail
  isPaused : Bool
deriving DecidableEq, Repr

/-- A `stats_update` payload: each key is either absent (`none`) or an array
(possibly empty — in JavaScript `if (msg.data.top_blocked)` is true for `[]`,
so presence, not emptiness, is what the guards test). -/
structure StatsUpdateMsg where
  top_sources : Option (List (Value × Nat)) := none
  top_destinations : Option (List (Value × Nat)) := none
  top_blocked : Option (List (Value × Nat)) := none
  top_blocked_categories : Option (List (Value × Nat)) := none
  top_blocked_detail : Option (List SiteDetail) := none
  top_blocked_categories_detail : Option (List CatDetail) := none
deriving DecidableEq, Repr

/-- The event messages handled by the embedded fragment of `ws.onmessage`
(the `log` and `stats_update` branches, lines 108–156; the one-shot `init`
branch is outside the embedded fragment). -/
inductive WsMsg where
  | log (data : LogDict)
  | statsUpdate (data : StatsUpdateMsg)
deriving DecidableEq, Repr

/-- `['deny', 'block', 'drop', 'blocked'].includes(log.action)` — JavaScript
strict-equality membership, false for non-string action values. -/
def jsActionIn (log : LogDict) (labels : List String) : Bool :=
  match dget log "action" with
  | some (.str s) => s ∈ labels
  | _ => false

/-- JavaScript `arr.slice(-n)` for positive `n`: the last `n` elements. -/
def jsSliceLast (n : Nat) (l : List α) : List α := l.drop (l.length - n)

/-- `ws.onmessage` for `log` and `stats_update` events.  `timeKey` abstracts
the `"${getHours()}:${getMinutes()}"` label computed from the log timestamp
or the wall clock. -/
def handleMessage (timeKey : String) (st : ClientState) (m : WsMsg) : ClientState :=
  match m with
  | .log d =>
    -- if (msg.type === 'log' && !isPausedRef.current)
    if st.isPaused then st
    else
      let isBlocked := jsActionIn d ["deny", "block", "drop", "blocked"]
      let isAllowed := jsActionIn d ["accept", "allow", "pass", "passthrough"]
      let logs := (d :: st.logs).take 1000
      let stats := { st.stats with
        total_logs := st.stats.total_logs + 1,
        allowed_count := st.stats.allowed_count + (if isAllowed then 1 else 0),
        blocked_count := st.stats.blocked_count + (if isBlocked then 1 else 0) }
      let tot :=
        match st.trafficOverTime.getLast? with
        | some lastEntry =>
          if lastEntry.time = timeKey then
            st.trafficOverTime.dropLast ++
              [{ lastEntry with
                  allowed := lastEntry.allowed + (if isAllowed then 1 else 0),
                  blocked := lastEntry.blocked + (if isBlocked then 1 else 0),
                  total := lastEntry.total + 1 }]
          else
            jsSliceLast 20 (st.trafficOverTime ++
              [{ time := timeKey, allowed := if isAllowed then 1 else 0,
                 blocked := if isBlocked then 1 else 0, total := 1 }])
        | none =>
          jsSliceLast 20 (st.trafficOverTime ++
            [{ time := timeKey, allowed := if isAllowed then 1 else 0,
               blocked := if isBlocked then 1 else 0, total := 1 }])
      { st with logs := logs, stats := stats, trafficOverTime := tot }
  | .statsUpdate u =>
    -- note: this branch is NOT guarded by isPausedRef
    let stats :=
      if u.top_sources.isSome || u.top_destinations.isSome then
        { st.stats with
            top_sources := u.top_sources.getD st.stats.top_sources,
            top_destinations := u.top_destinations.getD st.stats.top_destinations }
      else st.stats
    { st with
        stats := stats,
        topBlocked := u.top_blocked.getD st.topBlocked,
        topBlockedCategories := u.top_blocked_categories.getD st.topBlockedCategories,
        topBlockedDetail := u.top_blocked_detail.getD st.topBlockedDetail,
        topBlockedCategoriesDetail :=
          u.top_blocked_categories_detail.getD st.topBlockedCategoriesDetail }

/-- `pauseUpdates(paused)`: sets the per-subscriber flag, nothing else. -/
def pauseUpdates (st : ClientState) (paused : Bool) : ClientState :=
  { st with isPaused := paused }

/-- Apply a sequence of (timeKey, message) deliveries in order. -/
def handleAll (st : ClientState) (ms : List (String × WsMsg)) : ClientState :=
  ms.foldl (fun s p => handleMessage p.1 s p.2) st

/-! ## Spec-side predicates (stated from the specification's wording, for
comparison against the embedded code) -/

/-- Modelled from the spec (§4.1): a record is *allow-like* iff its `action`
value is in `{accept, allow, pass, passthrough}`. -/
def specAllowLike (r : LogDict) : Prop :=
  ∃ s, dget r "action" = some (Value.str s) ∧
    s ∈ ["accept", "allow", "pass", "passthrough"]

/-- Modelled from the spec (§4.1): a record is *block-like* iff its `action`
value is in `{deny, denied, blocked, drop, block}`. -/
def specBlockLike (r : LogDict) : Prop :=
  ∃ s, dget r "action" = some (Value.str s) ∧
    s ∈ ["deny", "denied", "blocked", "drop", "block"]

/-- Sorted by count descending (non-strictly). -/
def countSortedDesc (count : α → Nat) (l : List α) : Prop :=
  l.Pairwise (fun x y => count y ≤ count x)

/-- The spec's Top-N contract for one produced list `out` over a source
collection `input`: at most 10 entries, counts descending, and `out` is a
prefix of a count-descending rearrangement of `input` that keeps every group
of equal-count entries in its original relative order (stable tie-break by
the input's order). -/
def TopTenSpec (count : α → Nat) (input out : List α) : Prop :=
  out.length ≤ 10 ∧ countSortedDesc count out ∧
  ∃ s, countSortedDesc count s ∧
    (∀ c, s.filter (fun x => count x == c) = input.filter (fun x => count x == c)) ∧
    out = s.take 10

/-- The tie-break order the claim asserts for a produced Top-N list: each
later entry has a strictly smaller count, or an equal count and a strictly
later first-seen position. -/
def tieBreakOKb (count firstSeen : α → Nat) : List α → Bool
  | [] => true
  | x :: xs =>
    xs.all (fun y => count y < count x || (count y == count x && firstSeen x < firstSeen y))
      && tieBreakOKb count firstSeen xs

/-- First position in the ingested sequence at which a
(source IP, destination) pair occurs, for stating first-seen tie-break of the
flattened category detail tuples. -/
def pairFirstSeen (rs : List LogDict) (p : Value × Value × Nat) : Nat :=
  rs.findIdx (fun r => dget r "srcip" == some p.1 && dget r "hostname" == some p.2.1)

/-- The value of the last token with key `k`, if any — what repeated
`parsed[key] = value` assignments leave in the dict. -/
def lastVal : List (String × String) → String → Option String
  | [], _ => none
  | (k0, v0) :: rest, k =>
    match lastVal rest k with
    | some v => some v
    | none => if k0 = k then some v0 else none

/-! ## Concrete inputs used by the individual claims -/

/-- The log line of the webfilter-block scenario. -/
def c1Line : String :=
  "type=utm subtype=webfilter action=blocked srcip=10.0.0.5 hostname=example.com catdesc=Gambling"

/-- A syslog line whose all-digit hostname the parser coerces to an integer. -/
def c6Line : String := "hostname=12345 dstip=1.2.3.4 srcip=10.0.0.1"

/-- A blocked webfilter record with the given source IP and hostname. -/
def mkBlockedWeb (src host : String) : LogDict :=
  [("action", .str "blocked"), ("type", .str "utm"), ("subtype", .str "webfilter"),
   ("srcip", .str src), ("hostname", .str host), ("catdesc", .str "Gambling")]

/-- Three blocked webfilter records: the pair (10.0.0.2, beta) is first seen
before (10.0.0.1, gamma), but the flattened category detail groups by source
IP first. -/
def c5Logs : List LogDict :=
  [mkBlockedWeb "10.0.0.1" "alpha",
   mkBlockedWeb "10.0.0.2" "beta",
   mkBlockedWeb "10.0.0.1" "gamma"]

/-- A record whose action is `passthrough`: allow-like per the spec, but not
in the aggregator's allow tuple. -/
def ptLog : LogDict := [("action", Value.str "passthrough")]

/-- A record whose action is `accept` (counted by the aggregator). -/
def acceptLog : LogDict := [("action", Value.str "accept")]

/-- A minimal blocked UTM record carrying neither `hostname` nor `dstip`. -/
def c10Log : LogDict := [("action", Value.str "blocked"), ("type", Value.str "utm")]

/-- A paused subscriber state with empty data. -/
def pausedState : ClientState :=
  { logs := [],
    stats := { total_logs := 0, allowed_count := 0, blocked_count := 0,
               by_action := [], by_type := [], top_sources := [], top_destinations := [] },
    trafficOverTime := [], topBlocked := [], topBlockedCategories := [],
    topBlockedDetail := [], topBlockedCategoriesDetail := [], isPaused := true }

/-- A statistics-delta payload carrying a non-empty `top_blocked` list. -/
def c9Update : StatsUpdateMsg := { top_blocked := some [(Value.str "evil.example", 5)] }

/-- Three distinct records, for exercising the ring buffer at capacity 2. -/
def demoLogs : List LogDict := [ptLog, acceptLog, c10Log]

/-! ## Helper lemmas: dictionaries -/

theorem dget_bump_self [DecidableEq α] (d : List (α × Nat)) (k : α) :
    dget (bump d k) k = some ((dget d k).getD 0 + 1) := by
  induction d with
  | nil => simp [bump, dget]
  | cons p rest ih =>
    obtain ⟨k0, c⟩ := p
    by_cases h : k = k0
    · subst h; simp [bump, dget]
    · simp [bump, dget, h, ih]

theorem lookupCount_bump [DecidableEq α] (d : List (α × Nat)) (k : α) :
    lookupCount (bump d k) k = lookupCount d k + 1 := by
  simp [lookupCount, dget_bump_self]

theorem dget_dset_self {β : Type} (d : List (String × β)) (k : String) (v : β) :
    dget (dset d k v) k = some v := by
  induction d with
  | nil => simp [dset, dget]
  | cons p rest ih =>
    obtain ⟨k0, v0⟩ := p
    by_cases h : k = k0
    · subst h; simp [dset, dget]
    · simp [dset, dget, h, ih]

theorem dget_dset_ne {β : Type} (d : List (String × β)) (k k0 : String) (v : β)
    (h : k ≠ k0) : dget (dset d k0 v) k = dget d k := by
  induction d with
  | nil => simp [dset, dget, h]
  | cons p rest ih =>
    obtain ⟨k1, v1⟩ := p
    by_cases h1 : k0 = k1
    · subst h1; simp [dset, dget, h]
    · by_cases h2 : k = k1 <;> simp [dset, dget, h1, h2, ih]

/-- Folding the token assignments over the parsed dict: the lookup of `k`
afterwards is the coercion of the last `k` token, else the original entry. -/
theorem dget_foldl_coerce (ts : List (String × String)) (d : LogDict) (k : String) :
    dget (ts.foldl (fun d kv => dset d kv.1 (coerceValue kv.2)) d) k =
      match lastVal ts k with
      | some v => some (coerceValue v)
      | none => dget d k := by
  induction ts generalizing d with
  | nil => simp [lastVal]
  | cons p rest ih =>
    obtain ⟨k0, v0⟩ := p
    simp only [List.foldl_cons, ih, lastVal]
    cases hrest : lastVal rest k with
    | some v => simp
    | none =>
      by_cases h : k0 = k
      · subst h; simp [dget_dset_self]
      · simp [h, dget_dset_ne _ _ _ _ (Ne.symm h)]

/-! ## Helper lemmas: `add_log` field equations -/

theorem addLog_total (log : LogDict) (a : Agg) :
    ((addLog log a).1).total_logs = a.total_logs + 1 := by
  simp only [addLog]
  repeat' first
    | rfl
    | (simp only [apply_ite Agg.total_logs, ite_self])
    | split

theorem addLog_maxLogs (log : LogDict) (a : Agg) :
    ((addLog log a).1).maxLogs = a.maxLogs := by
  simp only [addLog]
  repeat' first
    | rfl
    | (simp only [apply_ite Agg.maxLogs, ite_self])
    | split

theorem addLog_logs (log : LogDict) (a : Agg) :
    ((addLog log a).1).logs = pyTrim a.maxLogs (a.logs ++ [log]) := by
  simp only [addLog]
  repeat' first
    | rfl
    | (simp only [apply_ite Agg.logs, ite_self])
    | split

theorem addLog_by_action (log : LogDict) (a : Agg) :
    ((addLog log a).1).by_action =
      bump a.by_action ((dget log "action").getD (Value.str "unknown")) := by
  simp only [addLog]
  repeat' first
    | rfl
    | (simp only [apply_ite Agg.by_action, ite_self])
    | split

theorem addLog_blocked (log : LogDict) (a : Agg) :
    ((addLog log a).1).blocked_count =
      if actionLowerOf log ∈ blockActions then a.blocked_count + 1 else a.blocked_count := by
  simp only [addLog]
  repeat' first
    | rfl
    | (simp only [apply_ite Agg.blocked_count, ite_self])
    | split

theorem addLog_allowed (log : LogDict) (a : Agg) :
    ((addLog log a).1).allowed_count =
      if actionLowerOf log ∈ blockActions then a.allowed_count
      else if actionLowerOf log ∈ allowActions then a.allowed_count + 1
      else a.allowed_count := by
  simp only [addLog]
  repeat' first
    | rfl
    | (simp only [apply_ite Agg.allowed_count, ite_self])
    | split

/-! ## Helper lemmas: ingestion folds -/

theorem ingestAll_maxLogs (rs : List LogDict) (a : Agg) :
    (ingestAll rs a).maxLogs = a.maxLogs := by
  induction rs generalizing a with
  | nil => rfl
  | cons r rest ih => simp [ingestAll] at ih ⊢; rw [ih, addLog_maxLogs]

theorem ingestAll_total (rs : List LogDict) (a : Agg) :
    (ingestAll rs a).total_logs = a.total_logs + rs.length := by
  induction rs generalizing a with
  | nil => rfl
  | cons r rest ih =>
    simp only [ingestAll, List.foldl_cons, List.length_cons] at ih ⊢
    rw [ih, addLog_total]
    omega

theorem addLog_ab_le (log : LogDict) (a : Agg) :
    ((addLog log a).1).allowed_count + ((addLog log a).1).blocked_count ≤
      a.allowed_count + a.blocked_count + 1 := by
  rw [addLog_allowed, addLog_blocked]
  by_cases hb : actionLowerOf log ∈ blockActions <;>
    by_cases ha : actionLowerOf log ∈ allowActions <;> simp [hb, ha] <;> omega

theorem addLog_ab_eq (log : LogDict) (a : Agg)
    (h : actionLowerOf log ∈ allowActions ∨ actionLowerOf log ∈ blockActions) :
    ((addLog log a).1).allowed_count + ((addLog log a).1).blocked_count =
      a.allowed_count + a.blocked_count + 1 := by
  rw [addLog_allowed, addLog_blocked]
  by_cases hb : actionLowerOf log ∈ blockActions <;>
    by_cases ha : actionLowerOf log ∈ allowActions <;> simp [hb, ha] at h ⊢ <;> omega

theorem ingestAll_ab_le (rs : List LogDict) (a : Agg) :
    (ingestAll rs a).allowed_count + (ingestAll rs a).blocked_count ≤
      a.allowed_count + a.blocked_count + rs.length := by
  induction rs generalizing a with
  | nil => simp [ingestAll]
  | cons r rest ih =>
    simp only [ingestAll, List.foldl_cons] at ih ⊢
    calc (List.foldl (fun s r => (addLog r s).1) ((addLog r a).1) rest).allowed_count +
          (List.foldl (fun s r => (addLog r s).1) ((addLog r a).1) rest).blocked_count
        ≤ ((addLog r a).1).allowed_count + ((addLog r a).1).blocked_count + rest.length :=
          ih ((addLog r a).1)
      _ ≤ a.allowed_count + a.blocked_count + 1 + rest.length := by
          have := addLog_ab_le r a; omega
      _ = a.allowed_count + a.blocked_count + (r :: rest).length := by
          simp [List.length_cons]; omega

theorem ingestAll_ab_eq (rs : List LogDict) (a : Agg)
    (h : ∀ r ∈ rs, actionLowerOf r ∈ allowActions ∨ actionLowerOf r ∈ blockActions) :
    (ingestAll rs a).allowed_count + (ingestAll rs a).blocked_count =
      a.allowed_count + a.blocked_count + rs.length := by
  induction rs generalizing a with
  | nil => simp [ingestAll]
  | cons r rest ih =>
    simp only [ingestAll, List.foldl_cons] at ih ⊢
    have hr := h r (List.mem_cons_self r rest)
    have hrest : ∀ x ∈ rest, actionLowerOf x ∈ allowActions ∨ actionLowerOf x ∈ blockActions :=
      fun x hx => h x (List.mem_cons_of_mem r hx)
    rw [ih ((addLog r a).1) hrest, addLog_ab_eq r a hr]
    simp [List.length_cons]
    omega

/-! ## Helper lemmas: ring-buffer window -/

theorem pyTrim_eq_drop (C : Nat) (l : List LogDict) (hC : 1 ≤ C) :
    pyTrim C l = l.drop (l.length - C) := by
  unfold pyTrim pySliceLast
  have hne : C ≠ 0 := by omega
  by_cases h : l.length > C
  · simp [h, hne]
  · have hz : l.length - C = 0 := by omega
    simp [h, hz]

theorem dropWindow (l : List LogDict) (x : LogDict) (C : Nat) (hC : 1 ≤ C) :
    (l.drop (l.length - C) ++ [x]).drop ((l.drop (l.length - C) ++ [x]).length - C) =
      (l ++ [x]).drop ((l ++ [x]).length - C) := by
  by_cases h : l.length < C
  · have h0 : l.length - C = 0 := by omega
    have h1 : (l ++ [x]).length - C = 0 := by simp [List.length_append]; omega
    simp [h0, h1]
  · have hlen : (l.drop (l.length - C)).length = C := by
      simp [List.length_drop]; omega
    have hlen2 : (l.drop (l.length - C) ++ [x]).length - C = 1 := by
      simp [List.length_append, hlen]
    have hlen3 : (l ++ [x]).length - C = (l.length - C) + 1 := by
      simp [List.length_append]; omega
    rw [hlen2, hlen3]
    rw [List.drop_append_of_le_length (by omega : 1 ≤ (l.drop (l.length - C)).length),
        List.drop_append_of_le_length (by omega : l.length - C + 1 ≤ l.length)]
    rw [List.drop_drop]

theorem ingestAll_append_one (rs : List LogDict) (r : LogDict) (a : Agg) :
    ingestAll (rs ++ [r]) a = (addLog r (ingestAll rs a)).1 := by
  simp [ingestAll, List.foldl_append]

theorem ingestAll_logs (rs : List LogDict) (C : Nat) (hC : 1 ≤ C) :
    (ingestAll rs (initAgg C)).logs = rs.drop (rs.length - C) := by
  induction rs using List.reverseRecOn with
  | nil => simp [ingestAll, initAgg]
  | append_singleton rs x ih =>
    rw [ingestAll_append_one, addLog_logs, ingestAll_maxLogs, ih]
    show pyTrim (initAgg C).maxLogs _ = _
    rw [show (initAgg C).maxLogs = C from rfl,
        pyTrim_eq_drop C _ hC, dropWindow rs x C hC]

/-! ## Helper lemmas: the stable descending sort of `get_stats` -/

theorem mem_insertDesc (count : α → Nat) (x z : α) (l : List α) :
    z ∈ insertDesc count x l ↔ z = x ∨ z ∈ l := by
  induction l with
  | nil => simp [insertDesc]
  | cons y ys ih =>
    simp only [insertDesc]
    by_cases h : count y < count x
    · simp [h, List.mem_cons]
      try tauto
    · simp [h, List.mem_cons, ih]
      try tauto

theorem pairwise_insertDesc (count : α → Nat) (x : α) (l : List α)
    (hl : l.Pairwise (fun a b => count b ≤ count a)) :
    (insertDesc count x l).Pairwise (fun a b => count b ≤ count a) := by
  induction l with
  | nil => simp [insertDesc]
  | cons y ys ih =>
    rcases List.pairwise_cons.mp hl with ⟨hy, hys⟩
    simp only [insertDesc]
    by_cases h : count y < count x
    · simp only [h, if_pos]
      refine List.pairwise_cons.mpr ⟨?_, hl⟩
      intro z hz
      rcases List.mem_cons.mp hz with rfl | hz
      · omega
      · have := hy z hz
        omega
    · simp only [h, if_neg, ite_false]
      refine List.pairwise_cons.mpr ⟨?_, ih hys⟩
      intro z hz
      rcases (mem_insertDesc count x z ys).mp hz with rfl | hz
      · omega
      · exact hy z hz

theorem filter_insertDesc (count : α → Nat) (x : α) (l : List α) (c : Nat)
    (hl : l.Pairwise (fun a b => count b ≤ count a)) :
    (insertDesc count x l).filter (fun a => count a == c) =
      l.filter (fun a => count a == c) ++ (if count x = c then [x] else []) := by
  induction l with
  | nil =>
    simp only [insertDesc, List.filter_nil, List.nil_append, List.filter_cons]
    by_cases h : count x = c <;> simp [h]
  | cons y ys ih =>
    rcases List.pairwise_cons.mp hl with ⟨hy, hys⟩
    simp only [insertDesc]
    by_cases h : count y < count x
    · simp only [h, if_pos]
      by_cases hc : count x = c
      · have hempty : (y :: ys).filter (fun a => count a == c) = [] := by
          rw [List.filter_eq_nil_iff]
          intro z hz
          rcases List.mem_cons.mp hz with rfl | hz
          · simp
            omega
          · have := hy z hz
            simp
            omega
        rw [List.filter_cons_of_pos (by simp [hc]), hempty]
        simp [hc]
      · rw [List.filter_cons_of_neg (by simp [hc])]
        simp [hc]
    · simp only [h, if_neg, ite_false]
      rw [List.filter_cons, List.filter_cons, ih hys]
      by_cases hyc : count y = c <;> simp [hyc]

theorem foldl_insertDesc_pairwise (count : α → Nat) (l acc : List α)
    (hacc : acc.Pairwise (fun a b => count b ≤ count a)) :
    (l.foldl (fun acc x => insertDesc count x acc) acc).Pairwise
      (fun a b => count b ≤ count a) := by
  induction l generalizing acc with
  | nil => exact hacc
  | cons x xs ih => exact ih _ (pairwise_insertDesc count x acc hacc)

theorem pairwise_sortDescBy (count : α → Nat) (l : List α) :
    (sortDescBy count l).Pairwise (fun a b => count b ≤ count a) :=
  foldl_insertDesc_pairwise count l [] (by simp)

theorem foldl_insertDesc_filter (count : α → Nat) (c : Nat) (l acc : List α)
    (hacc : acc.Pairwise (fun a b => count b ≤ count a)) :
    (l.foldl (fun acc x => insertDesc count x acc) acc).filter (fun a => count a == c) =
      acc.filter (fun a => count a == c) ++ l.filter (fun a => count a == c) := by
  induction l generalizing acc with
  | nil => simp
  | cons x xs ih =>
    rw [List.foldl_cons, ih _ (pairwise_insertDesc count x acc hacc),
        filter_insertDesc count x acc c hacc, List.filter_cons]
    by_cases hc : count x = c <;> simp [hc]

theorem filter_sortDescBy (count : α → Nat) (c : Nat) (l : List α) :
    (sortDescBy count l).filter (fun a => count a == c) =
      l.filter (fun a => count a == c) := by
  rw [sortDescBy, foldl_insertDesc_filter count c l [] (by simp)]
  simp

theorem topTen_spec (count : α → Nat) (l : List α) :
    TopTenSpec count l (topTen count l) := by
  refine ⟨?_, ?_, sortDescBy count l, pairwise_sortDescBy count l,
    fun c => filter_sortDescBy count c l, rfl⟩
  · exact List.length_take_le 10 _
  · exact (pairwise_sortDescBy count l).sublist (List.take_sublist 10 _)

/-! ## Helper lemmas: action label facts, paused handler -/

theorem block_allow_disjoint : ∀ s ∈ blockActions, s ∉ allowActions := by decide

theorem lower_fix_block : ∀ s ∈ blockActions, pyLower s = s ∧ s ≠ "" := by decide

theorem actionLowerOf_eq (log : LogDict) (act : String)
    (hact : dget log "action" = some (Value.str act)) (hne : act ≠ "")
    (hfix : pyLower act = act) : actionLowerOf log = act := by
  simp [actionLowerOf, hact, truthy, hne, pyStr, hfix]

theorem handleMessage_log_paused (t : String) (st : ClientState) (d : LogDict)
    (h : st.isPaused = true) : handleMessage t st (WsMsg.log d) = st := by
  simp [handleMessage, h]

theorem handleAll_logs_paused (st : ClientState) (h : st.isPaused = true) :
    ∀ ms : List (String × WsMsg),
      (∀ p ∈ ms, ∃ d, p.2 = WsMsg.log d) → handleAll st ms = st := by
  intro ms
  induction ms with
  | nil => intro _; rfl
  | cons p rest ih =>
    intro hms
    obtain ⟨d, hd⟩ := hms p (by simp)
    have h1 : handleMessage p.1 st p.2 = st := by
      rw [hd]
      exact handleMessage_log_paused p.1 st d h
    calc handleAll st (p :: rest)
        = handleAll (handleMessage p.1 st p.2) rest := rfl
      _ = handleAll st rest := by rw [h1]
      _ = st := ih (fun q hq => hms q (by simp [hq]))

/-! ## Claims -/

set_option maxRecDepth 10000

/-- C1: Ingesting the parse of the line
`type=utm subtype=webfilter action=blocked srcip=10.0.0.5 hostname=example.com catdesc=Gambling`,
starting from empty statistics, yields a record whose category is
`"security_web"`, increments `blockedCount` to 1, sets `blockedSiteCount` for
`example.com` to 1 with detail `{10.0.0.5: 1}`, and sets
`blockedCategoryCount` for `Gambling` to 1 with detail
`{10.0.0.5: {example.com: 1}}`. -/
theorem c1_webfilter_block_ingestion :
    dget (parseFortigateLog c1Line "T0") "log_category" = some (Value.str "security_web") ∧
    ((addLog (parseFortigateLog c1Line "T0") (initAgg 1000)).1).blocked_count = 1 ∧
    ((addLog (parseFortigateLog c1Line "T0") (initAgg 1000)).1).blocked_sites =
      [(Value.str "example.com", 1)] ∧
    ((addLog (parseFortigateLog c1Line "T0") (initAgg 1000)).1).blocked_sites_detail =
      [(Value.str "example.com", [(Value.str "10.0.0.5", 1)])] ∧
    ((addLog (parseFortigateLog c1Line "T0") (initAgg 1000)).1).blocked_categories =
      [(Value.str "Gambling", 1)] ∧
    ((addLog (parseFortigateLog c1Line "T0") (initAgg 1000)).1).blocked_categories_detail =
      [(Value.str "Gambling", [(Value.str "10.0.0.5", [(Value.str "example.com", 1)])])] := by
  decide

/-- C2 counterexample: a single ingested record with action `passthrough` is
allow-like per the spec's label set, yet `allowedCount + blockedCount = 0 < 1
= totalCount` — equality fails although no record's action is outside the
spec's allow-like/block-like sets. -/
theorem c2_passthrough_equality_fails :
    specAllowLike ptLog ∧
    (ingestAll [ptLog] (initAgg 1000)).total_logs = 1 ∧
    (ingestAll [ptLog] (initAgg 1000)).allowed_count +
      (ingestAll [ptLog] (initAgg 1000)).blocked_count = 0 :=
  ⟨⟨"passthrough", by decide, by decide⟩, by decide, by decide⟩

/-- C2 (amended): for every ingested sequence, `totalCount` equals its length
and `allowedCount + blockedCount` is at most its length, with equality
whenever every record's lowercased action lies in the aggregator's own label
sets `{accept, accepted, allow, allowed, pass}` ∪
`{deny, denied, blocked, drop, block}`. -/
theorem c2_totalcount_and_bounds (rs : List LogDict) :
    (ingestAll rs (initAgg 1000)).total_logs = rs.length ∧
    (ingestAll rs (initAgg 1000)).allowed_count +
      (ingestAll rs (initAgg 1000)).blocked_count ≤ rs.length ∧
    ((∀ r ∈ rs, actionLowerOf r ∈ allowActions ∨ actionLowerOf r ∈ blockActions) →
      (ingestAll rs (initAgg 1000)).allowed_count +
        (ingestAll rs (initAgg 1000)).blocked_count = rs.length) := by
  refine ⟨?_, ?_, ?_⟩
  · have h := ingestAll_total rs (initAgg 1000)
    simpa [initAgg] using h
  · have h := ingestAll_ab_le rs (initAgg 1000)
    simpa [initAgg] using h
  · intro hall
    have h := ingestAll_ab_eq rs (initAgg 1000) hall
    simpa [initAgg] using h

/-- C2 witness: the amended statement applied to the one-record sequence
`[acceptLog]`, whose action is counted, gives `totalCount = 1` and
`allowedCount + blockedCount = 1`. -/
theorem c2_totalcount_and_bounds_witness :
    (ingestAll [acceptLog] (initAgg 1000)).total_logs = 1 ∧
    (ingestAll [acceptLog] (initAgg 1000)).allowed_count +
      (ingestAll [acceptLog] (initAgg 1000)).blocked_count = 1 :=
  ⟨(c2_totalcount_and_bounds [acceptLog]).1,
   (c2_totalcount_and_bounds [acceptLog]).2.2 (by decide)⟩

/-- C3: for every capacity `C ≥ 1` and ingested sequence, the ring buffer
holds at most `C` records and equals exactly the last `C` records in arrival
order (`drop (N - C)` of the full sequence). -/
theorem c3_ring_buffer_window (C : Nat) (hC : 1 ≤ C) (rs : List LogDict) :
    (ingestAll rs (initAgg C)).logs.length ≤ C ∧
    (ingestAll rs (initAgg C)).logs = rs.drop (rs.length - C) := by
  have h := ingestAll_logs rs C hC
  refine ⟨?_, h⟩
  rw [h, List.length_drop]
  omega

/-- C3 witness: capacity 2, three records — the buffer is exactly the last
two in order. -/
theorem c3_ring_buffer_window_witness :
    (ingestAll demoLogs (initAgg 2)).logs = demoLogs.drop (demoLogs.length - 2) ∧
    (ingestAll demoLogs (initAgg 2)).logs = [acceptLog, c10Log] :=
  ⟨(c3_ring_buffer_window 2 (by omega) demoLogs).2,
   ((c3_ring_buffer_window 2 (by omega) demoLogs).2).trans (by decide)⟩

/-- C4 counterexample: `passthrough` is in the spec's allow-like set, yet the
aggregator leaves `allowedCount` at 0 for such a record (its tuple reads
`('accept', 'accepted', 'allow', 'allowed', 'pass')`). -/
theorem c4_passthrough_not_counted :
    specAllowLike ptLog ∧
    ((addLog ptLog (initAgg 1000)).1).allowed_count = 0 ∧
    ((addLog ptLog (initAgg 1000)).1).blocked_count = 0 ∧
    ((addLog ptLog (initAgg 1000)).1).total_logs = 1 :=
  ⟨⟨"passthrough", by decide, by decide⟩, by decide, by decide, by decide⟩

/-- C4 (amended): a record increments `allowedCount` iff its lowercased
action is in `{accept, accepted, allow, allowed, pass}`, increments
`blockedCount` iff its lowercased action is in
`{deny, denied, blocked, drop, block}`, and in every case increments
`totalCount`. -/
theorem c4_action_classification (log : LogDict) (a : Agg) :
    ((addLog log a).1).total_logs = a.total_logs + 1 ∧
    ((addLog log a).1).allowed_count =
      (if actionLowerOf log ∈ allowActions then a.allowed_count + 1 else a.allowed_count) ∧
    ((addLog log a).1).blocked_count =
      (if actionLowerOf log ∈ blockActions then a.blocked_count + 1 else a.blocked_count) := by
  refine ⟨addLog_total log a, ?_, addLog_blocked log a⟩
  rw [addLog_allowed]
  by_cases hb : actionLowerOf log ∈ blockActions
  · have ha : actionLowerOf log ∉ allowActions := block_allow_disjoint _ hb
    simp [hb, ha]
  · simp [hb]

/-- C5 counterexample: after the three-record sequence `c5Logs`, the produced
per-category source list for `Gambling` has three equal-count tuples ordered
`(10.0.0.1, alpha), (10.0.0.1, gamma), (10.0.0.2, beta)` by nested-map
iteration, although the pair `(10.0.0.2, beta)` was first seen (index 1)
before `(10.0.0.1, gamma)` (index 2): ties are not broken by first-seen
order. -/
theorem c5_flattened_tie_order_violation :
    (getStats (ingestAll c5Logs (initAgg 1000))).top_blocked_categories_detail =
      [{ category := Value.str "Gambling", count := 3,
         sources := [(Value.str "10.0.0.1", Value.str "alpha", 1),
                     (Value.str "10.0.0.1", Value.str "gamma", 1),
                     (Value.str "10.0.0.2", Value.str "beta", 1)] }] ∧
    pairFirstSeen c5Logs (Value.str "10.0.0.2", Value.str "beta", 1) = 1 ∧
    pairFirstSeen c5Logs (Value.str "10.0.0.1", Value.str "gamma", 1) = 2 ∧
    tieBreakOKb (fun t => t.2.2) (pairFirstSeen c5Logs)
      [(Value.str "10.0.0.1", Value.str "alpha", 1),
       (Value.str "10.0.0.1", Value.str "gamma", 1),
       (Value.str "10.0.0.2", Value.str "beta", 1)] = false := by
  refine ⟨by decide, by decide, by decide, by decide⟩

/-- C5 (amended): every Top-N list of the snapshot — top sources, top
destinations, top blocked sites, top blocked categories, and each entry's
source detail list — has at most 10 entries and is a 10-prefix of a
count-descending rearrangement of its source collection that preserves the
relative order of equal-count entries (stable tie-break by the collection's
insertion order; for the per-category lists the collection is the flattened
nested detail map, whose iteration order can differ from global first-seen
pair order). -/
theorem c5_topten_shape (a : Agg) :
    TopTenSpec Prod.snd a.by_srcip (getStats a).top_sources ∧
    TopTenSpec Prod.snd a.by_destination (getStats a).top_destinations ∧
    TopTenSpec Prod.snd a.blocked_sites (getStats a).top_blocked ∧
    TopTenSpec Prod.snd a.blocked_categories (getStats a).top_blocked_categories ∧
    (∀ e ∈ (getStats a).top_blocked_detail,
      TopTenSpec Prod.snd ((dget a.blocked_sites_detail e.site).getD []) e.sources) ∧
    (∀ e ∈ (getStats a).top_blocked_categories_detail,
      TopTenSpec (fun t => t.2.2)
        (flattenCat ((dget a.blocked_categories_detail e.category).getD [])) e.sources) := by
  refine ⟨topTen_spec _ _, topTen_spec _ _, topTen_spec _ _, topTen_spec _ _, ?_, ?_⟩
  · intro e he
    simp only [getStats, List.mem_map] at he
    obtain ⟨p, _, rfl⟩ := he
    exact topTen_spec _ _
  · intro e he
    simp only [getStats, List.mem_map] at he
    obtain ⟨p, _, rfl⟩ := he
    exact topTen_spec _ _

/-- C5 witness: a one-record state where the site-detail source list of the
produced entry for `delta` satisfies the Top-N shape. -/
theorem c5_topten_shape_witness :
    TopTenSpec Prod.snd
      ((dget (ingestAll [mkBlockedWeb "10.0.0.9" "delta"] (initAgg 1000)).blocked_sites_detail
          (Value.str "delta")).getD [])
      [(Value.str "10.0.0.9", 1)] := by
  have h := (c5_topten_shape (ingestAll [mkBlockedWeb "10.0.0.9" "delta"] (initAgg 1000))).2.2.2.2.1
  have he : ({ site := Value.str "delta", count := 1,
               sources := [(Value.str "10.0.0.9", 1)] } : SiteDetail) ∈
      (getStats (ingestAll [mkBlockedWeb "10.0.0.9" "delta"] (initAgg 1000))).top_blocked_detail := by
    decide
  exact h _ he

/-- C6 (code evaluated at the failing input): the line
`hostname=12345 dstip=1.2.3.4 srcip=10.0.0.1` parses `hostname` to the
integer `12345` — present, non-empty, different from `dstip`, and not a
dotted-quad literal, so the claim expects it as the destination key — but
`add_log` raises (`_is_ip_address` calls `.split` on an `int`), leaving
`by_destination` untouched while the earlier counters were already
updated. -/
theorem c6_integer_hostname_aborts_destination :
    dget (parseFortigateLog c6Line "T0") "hostname" = some (Value.int 12345) ∧
    (addLog (parseFortigateLog c6Line "T0") (initAgg 1000)).2 = false ∧
    ((addLog (parseFortigateLog c6Line "T0") (initAgg 1000)).1).by_destination = [] ∧
    ((addLog (parseFortigateLog c6Line "T0") (initAgg 1000)).1).total_logs = 1 ∧
    ((addLog (parseFortigateLog c6Line "T0") (initAgg 1000)).1).by_srcip =
      [(Value.str "10.0.0.1", 1)] := by
  refine ⟨by decide, by decide, by decide, by decide, by decide⟩

/-- The parser's digit test agrees with "non-empty and solely decimal
digits". -/
theorem pyIsDigit_iff (v : String) :
    pyIsDigit v = true ↔ (v.data ≠ [] ∧ ∀ c ∈ v.data, c.isDigit = true) := by
  simp [pyIsDigit, List.all_eq_true, List.isEmpty_iff]

/-- C7: for a key `k` (other than the parser-owned `log_category` /
`timestamp` slots) whose last extracted token carries value `v`, the parsed
record maps `k` to the integer value of `v` exactly when `v` is non-empty and
consists solely of digits, and to the unchanged string `v` otherwise. -/
theorem c7_digit_coercion (raw t k v : String)
    (hk1 : k ≠ "log_category") (hk2 : k ≠ "timestamp")
    (hlast : lastVal (pyFindAll raw) k = some v) :
    dget (parseFortigateLog raw t) k =
      some (if v.data ≠ [] ∧ ∀ c ∈ v.data, c.isDigit = true
            then Value.int (decimalNat v) else Value.str v) := by
  have key : ∀ d : LogDict,
      dget (match dget d "date", dget d "time" with
            | some dv, some tv => dset d "timestamp" (.str (pyStr dv ++ "T" ++ pyStr tv))
            | _, _ => d) k = dget d k := by
    intro d
    cases hd : dget d "date" <;> cases ht : dget d "time" <;>
      simp [dget_dset_ne _ _ _ _ hk2]
  simp only [parseFortigateLog]
  rw [dget_dset_ne _ _ _ _ hk1, key, dget_foldl_coerce, hlast]
  by_cases hc : v.data ≠ [] ∧ ∀ c ∈ v.data, c.isDigit = true
  · rw [if_pos hc]
    simp only [coerceValue, if_pos ((pyIsDigit_iff v).mpr hc)]
  · rw [if_neg hc]
    simp only [coerceValue, if_neg (fun hb => hc ((pyIsDigit_iff v).mp hb))]

/-- C7 witness: the token `count=007` (all digits, leading zero) is coerced
to the integer 7. -/
theorem c7_digit_coercion_witness :
    dget (parseFortigateLog "count=007 note=ok" "T3") "count" = some (Value.int 7) := by
  have h := c7_digit_coercion "count=007 note=ok" "T3" "count" "007"
    (by decide) (by decide) (by decide)
  exact h.trans (by decide)

/-- C8 counterexample: the token-free input `hello world!!` yields a record
that also carries `log_category = "_"` (the categoriser's fallback for
missing `type`/`subtype`), not only `raw` and `received_at`. -/
theorem c8_log_category_always_present :
    dget (parseFortigateLog "hello world!!" "T1") "log_category" = some (Value.str "_") ∧
    parseFortigateLog "hello world!!" "T1" ≠
      [("raw", Value.str "hello world!!"), ("received_at", Value.str "T1")] :=
  ⟨by decide, by decide⟩

/-- C8 (amended): parsing is total, and an input with no recognizable
`key=value` token yields exactly the three-field record
`raw`, `receivedAt`, and the fallback category `"_"`. -/
theorem c8_no_token_parse (raw t : String) (h : pyFindAll raw = []) :
    parseFortigateLog raw t =
      [("raw", Value.str raw), ("received_at", Value.str t),
       ("log_category", Value.str "_")] := by
  simp only [parseFortigateLog, h, List.foldl_nil]
  rfl

/-- C8 witness: the amended statement evaluated on the token-free input
`garbage`. -/
theorem c8_no_token_parse_witness :
    pyFindAll "garbage" = [] ∧
    parseFortigateLog "garbage" "T2" =
      [("raw", Value.str "garbage"), ("received_at", Value.str "T2"),
       ("log_category", Value.str "_")] :=
  ⟨by decide, c8_no_token_parse "garbage" "T2" (by decide)⟩

/-- C9 counterexample: a `stats_update` delivery is applied even while the
subscriber is paused — the paused client state changes (its `topBlocked`
list is replaced). -/
theorem c9_stats_update_applied_while_paused :
    pausedState.isPaused = true ∧
    handleMessage "12:00" pausedState (WsMsg.statsUpdate c9Update) ≠ pausedState :=
  ⟨by decide, by decide⟩

/-- C9 (amended): while a subscriber is paused, any sequence of live record
deliveries leaves its state unchanged (zero record events applied), and
un-pausing flips only the paused flag — no backfill of the missed records.
Statistics-delta (`stats_update`) deliveries, however, are still applied
while paused. -/
theorem c9_paused_record_suppression (st : ClientState) (h : st.isPaused = true)
    (ms : List (String × WsMsg)) (hms : ∀ p ∈ ms, ∃ d, p.2 = WsMsg.log d) :
    handleAll st ms = st ∧
    pauseUpdates (handleAll st ms) false = { st with isPaused := false } := by
  have h1 := handleAll_logs_paused st h ms hms
  exact ⟨h1, by rw [h1]; rfl⟩

/-- C9 witness: a paused subscriber receiving two record deliveries keeps its
exact state, and resuming merely clears the flag. -/
theorem c9_paused_record_suppression_witness :
    handleAll pausedState [("12:01", WsMsg.log ptLog), ("12:02", WsMsg.log acceptLog)] =
      pausedState ∧
    pauseUpdates
      (handleAll pausedState [("12:01", WsMsg.log ptLog), ("12:02", WsMsg.log acceptLog)])
      false = { pausedState with isPaused := false } :=
  c9_paused_record_suppression pausedState (by decide) _
    (by
      intro p hp
      simp only [List.mem_cons, List.not_mem_nil, or_false] at hp
      rcases hp with rfl | rfl
      · exact ⟨ptLog, rfl⟩
      · exact ⟨acceptLog, rfl⟩)

/-- C10: a block-like UTM record that carries neither `hostname` nor `dstip`
still increments `totalCount`, `blockedCount` and its per-action counter,
while `blocked_sites` and `blocked_sites_detail` are left entirely
unchanged. -/
theorem c10_blocked_utm_frame (log : LogDict) (a : Agg) (act : String)
    (hact : dget log "action" = some (Value.str act)) (hmem : act ∈ blockActions)
    (htype : dget log "type" = some (Value.str "utm"))
    (hhost : dget log "hostname" = none) (hdst : dget log "dstip" = none) :
    ((addLog log a).1).total_logs = a.total_logs + 1 ∧
    ((addLog log a).1).blocked_count = a.blocked_count + 1 ∧
    lookupCount ((addLog log a).1).by_action (Value.str act) =
      lookupCount a.by_action (Value.str act) + 1 ∧
    ((addLog log a).1).blocked_sites = a.blocked_sites ∧
    ((addLog log a).1).blocked_sites_detail = a.blocked_sites_detail := by
  have hfix := lower_fix_block act hmem
  have hlow : actionLowerOf log = act := actionLowerOf_eq log act hact hfix.2 hfix.1
  refine ⟨addLog_total log a, ?_, ?_, ?_, ?_⟩
  · rw [addLog_blocked, hlow, if_pos hmem]
  · rw [addLog_by_action, hact, Option.getD_some]
    exact lookupCount_bump a.by_action (Value.str act)
  · simp only [addLog, hact, hhost, hdst, htype, hlow, otruthy, pyOr, bumpIfTruthy,
      Option.getD_some, Bool.false_and, Bool.and_false, decide_not]
    repeat' first
      | rfl
      | (simp only [apply_ite Agg.blocked_sites, ite_self])
  · simp only [addLog, hact, hhost, hdst, htype, hlow, otruthy, pyOr, bumpIfTruthy,
      Option.getD_some, Bool.false_and, Bool.and_false, decide_not]
    repeat' first
      | rfl
      | (simp only [apply_ite Agg.blocked_sites_detail, ite_self])

/-- C10 witness: the concrete record `{action: blocked, type: utm}` ingested
into the empty aggregator. -/
theorem c10_blocked_utm_frame_witness :
    ((addLog c10Log (initAgg 1000)).1).total_logs = (initAgg 1000).total_logs + 1 ∧
    ((addLog c10Log (initAgg 1000)).1).blocked_count = (initAgg 1000).blocked_count + 1 ∧
    lookupCount ((addLog c10Log (initAgg 1000)).1).by_action (Value.str "blocked") =
      lookupCount (initAgg 1000).by_action (Value.str "blocked") + 1 ∧
    ((addLog c10Log (initAgg 1000)).1).blocked_sites = (initAgg 1000).blocked_sites ∧
    ((addLog c10Log (initAgg 1000)).1).blocked_sites_detail =
      (initAgg 1000).blocked_sites_detail :=
  c10_blocked_utm_frame c10Log (initAgg 1000) "blocked"
    (by decide) (by decide) (by decide) (by decide) (by decide)
